import Mathlib

/-!
Verification of the annotation-validation script (`scripts/validate_annotations.py`)
and the dataset catalog (`src/dataset_loader.py`) of the repository.

The Python values flowing through the validator are JSON values; we embed
them as `JVal`.  A JSON object / Python dict is an association list with
string keys (`Obj`); Python numbers (int or float) are embedded as rationals,
so that mixed int/float comparisons are the plain numeric comparisons, as in
Python.  Operations that raise a Python exception (KeyError, TypeError) are
modelled by an explicit error outcome.
-/

set_option autoImplicit false

namespace BTT

/-- A JSON value as produced by `json.load` (objects are represented
separately as `Obj` association lists where they occur). -/
inductive JVal where
  | null
  | bool (b : Bool)
  | num (q : ℚ)
  | str (s : String)
  | arr (xs : List JVal)

/-- A JSON object / Python dict with string keys: an association list.
Python dicts have unique keys; lookup takes the first match. -/
abbrev Obj := List (String × JVal)

/-- Support for `o.get(k)` / `o.get(k, default)`: first value stored under `k`. -/
def assocGet {β : Type} : List (String × β) → String → Option β
  | [], _ => none
  | (k₁, v) :: rest, k => if k₁ = k then some v else assocGet rest k

/-- Python dict assignment `o[k] = v`: replace the first binding of `k`,
or append a new binding at the end (insertion order is preserved). -/
def assocSet {β : Type} : List (String × β) → String → β → List (String × β)
  | [], k, v => [(k, v)]
  | (k₁, v₁) :: rest, k, v =>
    if k₁ = k then (k, v) :: rest else (k₁, v₁) :: assocSet rest k v

/-- Python `==` on JSON scalars: numeric equality identifies ints, floats and
booleans (`True == 1`); distinct kinds otherwise compare unequal.  Lists
compare elementwise. -/
def jeq : JVal → JVal → Bool
  | .null, .null => true
  | .bool a, .bool b => a == b
  | .bool a, .num b => (if a then (1 : ℚ) else 0) == b
  | .num a, .bool b => a == (if b then (1 : ℚ) else 0)
  | .num a, .num b => a == b
  | .str a, .str b => a == b
  | .arr xs, .arr ys => jeqArr xs ys
  | _, _ => false
where
  /-- elementwise `==` on JSON arrays. -/
  jeqArr : List JVal → List JVal → Bool
  | [], [] => true
  | x :: xs, y :: ys => jeq x y && jeqArr xs ys
  | _, _ => false

/-- Lookup in a dict keyed by JSON values (`img_dict.get(image_id)`),
using Python equality on the keys. -/
def dictGet (m : List (JVal × Obj)) (k : JVal) : Option Obj :=
  match m with
  | [] => none
  | (k₁, v) :: rest => if jeq k₁ k then some v else dictGet rest k

/-- Insertion into a dict keyed by JSON values; a later insertion with an
equal key overwrites the earlier value (last write wins). -/
def dictInsert (m : List (JVal × Obj)) (k : JVal) (v : Obj) : List (JVal × Obj) :=
  match m with
  | [] => [(k, v)]
  | (k₁, v₁) :: rest =>
    if jeq k₁ k then (k, v) :: rest else (k₁, v₁) :: dictInsert rest k v

/-- Python truthiness of a JSON value (`not bbox`, `not img_entry`):
`None`, `False`, numeric zero, the empty string and the empty list are falsy. -/
def truthy : JVal → Bool
  | .null => false
  | .bool b => b
  | .num q => q != 0
  | .str s => !s.isEmpty
  | .arr xs => !xs.isEmpty

/-- Python `len`: defined on strings and lists, a `TypeError` (modelled as
`none`) on the other JSON values. -/
def pyLen : JVal → Option Nat
  | .str s => some s.length
  | .arr xs => some xs.length
  | _ => none

/-- Numeric view of a JSON value for comparison with a number: Python
compares ints, floats and bools numerically and raises `TypeError`
(modelled as `none`) on anything else. -/
def asNum : JVal → Option ℚ
  | .num q => some q
  | .bool b => some (if b then 1 else 0)
  | _ => none

/-- Comparison `v <= c` in Python, `none` when it raises `TypeError`. -/
def pyLe (v : JVal) (c : ℚ) : Option Bool :=
  (asNum v).map (fun q => decide (q ≤ c))

/-- Comparison `v < c` in Python, `none` when it raises `TypeError`. -/
def pyLt (v : JVal) (c : ℚ) : Option Bool :=
  (asNum v).map (fun q => decide (q < c))

/-- Python short-circuit `or` over possibly-raising operands: the right
operand is not evaluated when the left one is already true. -/
def pyOr (a b : Option Bool) : Option Bool :=
  match a with
  | none => none
  | some true => some true
  | some false => b

/-- The two-argument form of `os.path.join` used by the script. -/
def pyJoin (a b : String) : String :=
  if b.startsWith "/" then b
  else if a = "" then b
  else if a.endsWith "/" then a ++ b
  else a ++ "/" ++ b

/-! ### The annotation validator (`scripts/validate_annotations.py`) -/

/-- Outcome of the per-record body of the validation loop: the record is
appended to `clean_annotations` unchanged, or appended to
`dropped_annotations` after `ann["drop_reason"] = reason`, or a Python
exception aborts the whole run. -/
inductive StepRes where
  | accept
  | drop (rec : Obj) (reason : String)
  | err

/-- One iteration of the validation loop of `validate_annotations.py`
(lines 30-61), for one record `ann`, given the image index `idx`, the image
root `root` and the filesystem `fs` (`fs p` = `os.path.exists p`).

Faithful to the Python:
* `image_id = ann.get("image_id")`, `bbox = ann.get("bbox", None)`;
* `if not img_entry or not os.path.exists(os.path.join(imgs, img_entry["file_name"]))`
  — short-circuit, and `img_entry["file_name"]` raises `KeyError` when the
  key is missing (and `os.path.join` raises `TypeError` on a non-string);
* `if not bbox or len(bbox) != 4` — truthiness then `len`, which raises
  `TypeError` on a number or boolean;
* `x, y, w, h = bbox` then `if w <= 0 or h <= 0` and `if x < 0 or y < 0`
  — the comparisons raise `TypeError` on non-numeric components (a
  length-4 string unpacks into four one-character strings, whose comparison
  with `0` also raises). -/
def validateAnn (idx : List (JVal × Obj)) (root : String) (fs : String → Bool)
    (ann : Obj) : StepRes :=
  let image_id := (assocGet ann "image_id").getD .null
  let bbox := (assocGet ann "bbox").getD .null
  match dictGet idx image_id with
  | none => .drop (assocSet ann "drop_reason" (.str "missing image")) "missing image"
  | some entry =>
    if entry.isEmpty then
      .drop (assocSet ann "drop_reason" (.str "missing image")) "missing image"
    else
      match assocGet entry "file_name" with
      | none => .err
      | some (.str fname) =>
        if !fs (pyJoin root fname) then
          .drop (assocSet ann "drop_reason" (.str "missing image")) "missing image"
        else if !truthy bbox then
          .drop (assocSet ann "drop_reason" (.str "missing bbox")) "missing bbox"
        else
          match pyLen bbox with
          | none => .err
          | some n =>
            if n ≠ 4 then
              .drop (assocSet ann "drop_reason" (.str "missing bbox")) "missing bbox"
            else
              match bbox with
              | .arr [x, y, w, h] =>
                match pyOr (pyLe w 0) (pyLe h 0) with
                | none => .err
                | some true =>
                  .drop (assocSet ann "drop_reason" (.str "zero/negative width or height"))
                    "zero/negative width or height"
                | some false =>
                  match pyOr (pyLt x 0) (pyLt y 0) with
                  | none => .err
                  | some true =>
                    .drop (assocSet ann "drop_reason" (.str "negative x or y"))
                      "negative x or y"
                  | some false => .accept
              | _ => .err
      | some _ => .err

/-- The "missing image" rule as a standalone predicate: `image_id` not in
the index, or the indexed entry falsy, or its `file_name` names a file that
does not exist. -/
def failsImageRule (idx : List (JVal × Obj)) (root : String) (fs : String → Bool)
    (ann : Obj) : Bool :=
  match dictGet idx ((assocGet ann "image_id").getD .null) with
  | none => true
  | some entry =>
    entry.isEmpty ||
      (match assocGet entry "file_name" with
       | some (.str fname) => !fs (pyJoin root fname)
       | _ => false)

/-- The "missing bbox" rule as a standalone predicate: `bbox` falsy
(absent, null, empty, zero) or of length other than 4. -/
def failsBboxRule (ann : Obj) : Bool :=
  let bbox := (assocGet ann "bbox").getD .null
  !truthy bbox || (pyLen bbox != some 4)

/-- The "zero/negative width or height" rule as a standalone predicate:
a 4-component bbox whose evaluated `w <= 0 or h <= 0` is true. -/
def failsWHRule (ann : Obj) : Bool :=
  match (assocGet ann "bbox").getD .null with
  | .arr [_, _, w, h] => pyOr (pyLe w 0) (pyLe h 0) == some true
  | _ => false

/-- The "negative x or y" rule as a standalone predicate: a 4-component
bbox whose evaluated `x < 0 or y < 0` is true. -/
def failsXYRule (ann : Obj) : Bool :=
  match (assocGet ann "bbox").getD .null with
  | .arr [x, y, _, _] => pyOr (pyLt x 0) (pyLt y 0) == some true
  | _ => false

/-- The top-level input of the script: `data.get("images", [])` and
`data.get("annotations", [])`. -/
structure CocoData where
  images : List Obj
  anns : List Obj

/-- The index `img_dict = {img["id"]: img for img in data.get("images", [])}`:
later records with an equal id overwrite earlier ones; a record without an
`id` key raises `KeyError` (fatal). -/
def buildIndex (images : List Obj) : Except Unit (List (JVal × Obj)) :=
  images.foldlM
    (fun m img =>
      match assocGet img "id" with
      | none => .error ()
      | some k => .ok (dictInsert m k img))
    []

/-- The cap `if subset_limit: annotations = annotations[:subset_limit]` — note the
Python truthiness test: `None` and `0` both leave the list unsliced. -/
def sliceAnns (anns : List Obj) : Option Nat → List Obj
  | none => anns
  | some n => if n = 0 then anns else anns.take n

/-- The validation loop: each processed record goes to exactly one of the
clean list or the dropped list; a raised exception aborts the run (the
output files are never written). -/
def validateLoop (idx : List (JVal × Obj)) (root : String) (fs : String → Bool) :
    List Obj → Except Unit (List Obj × List Obj)
  | [] => .ok ([], [])
  | ann :: rest =>
    match validateAnn idx root fs ann with
    | .err => .error ()
    | .accept =>
      match validateLoop idx root fs rest with
      | .error e => .error e
      | .ok (c, d) => .ok (ann :: c, d)
    | .drop rec _ =>
      match validateLoop idx root fs rest with
      | .error e => .error e
      | .ok (c, d) => .ok (c, rec :: d)

/-- The whole script run on in-memory data: build the image index, apply
the optional cap, validate every remaining record.  Returns
`(clean_annotations, dropped_annotations)`, or an error when a Python
exception aborts the run. -/
def runValidator (fs : String → Bool) (root : String) (data : CocoData)
    (subset_limit : Option Nat) : Except Unit (List Obj × List Obj) :=
  match buildIndex data.images with
  | .error e => .error e
  | .ok idx => validateLoop idx root fs (sliceAnns data.anns subset_limit)

/-- Returns `true` iff the record is accepted by `validateAnn`. -/
def isAccepted (idx : List (JVal × Obj)) (root : String) (fs : String → Bool)
    (ann : Obj) : Bool :=
  match validateAnn idx root fs ann with
  | .accept => true
  | _ => false

/-- The dropped record produced for `ann`, when `ann` is dropped. -/
def droppedRec (idx : List (JVal × Obj)) (root : String) (fs : String → Bool)
    (ann : Obj) : Option Obj :=
  match validateAnn idx root fs ann with
  | .drop rec _ => some rec
  | _ => none

/-! ### The dataset catalog (`src/dataset_loader.py`)

The catalog state is embedded as an association list from dataset id to
`DatasetEntry`; the parsed collection type is a parameter `α`, and the
filesystem read (`open` + `json.load`) is a parameter `read`, so that
"no re-read happens" can be stated as independence from `read`. -/

/-- The Python exception classes raised by the catalog. -/
inductive PyErr where
  | valueError (msg : String)
  | fileNotFoundError (msg : String)

/-- One entry of `self.datasets`. -/
structure DatasetEntry (α : Type) where
  annotations_path : String
  images_path : String
  loaded : Bool
  data : Option α

/-- The catalog: the `self.datasets` mapping of `BTTDatasetLoader`. -/
structure Catalog (α : Type) where
  datasets : List (String × DatasetEntry α)

/-- The `list_datasets` accessor: the keys of `self.datasets`. -/
def list_datasets {α : Type} (cat : Catalog α) : List String :=
  cat.datasets.map Prod.fst

/-- A single-quote character, for Python `repr` of strings. -/
def sq : String := String.singleton (Char.ofNat 39)

/-- Python `repr` of a list of strings, as interpolated by the f-string in
`load_dataset`. -/
def pyStrListRepr (xs : List String) : String :=
  "[" ++ String.intercalate ", " (xs.map (fun s => sq ++ s ++ sq)) ++ "]"

/-- The message `f"Dataset {dataset_id} not found. Available: {self.list_datasets()}"`. -/
def unknownDatasetMsg {α : Type} (cat : Catalog α) (did : String) : String :=
  "Dataset " ++ did ++ " not found. Available: " ++ pyStrListRepr (list_datasets cat)

/-- The method `load_dataset` (lines 57-75): raise `ValueError` on an unknown id;
otherwise read and parse the file on the first call, cache the result, and
return the cached `data` field.  Returns the result together with the
catalog state after the call. -/
def load_dataset {α : Type} (read : String → α) (cat : Catalog α) (did : String) :
    Except PyErr (Option α) × Catalog α :=
  match assocGet cat.datasets did with
  | none => (.error (.valueError (unknownDatasetMsg cat did)), cat)
  | some e =>
    if e.loaded then (.ok e.data, cat)
    else
      let d := read e.annotations_path
      let e2 : DatasetEntry α := { e with data := some d, loaded := true }
      (.ok (some d), { cat with datasets := assocSet cat.datasets did e2 })

/-- An image record as read by `get_dataset_stats` and
`filter_images_by_context`: a missing `labels` key is `img.get("labels", [])`
= the empty list, and a missing `contexts` key is the empty mapping. -/
structure ImageRec where
  imgId : Int
  file_name : String
  labels : List String
  contexts : List (String × List String)
  deriving DecidableEq

/-- The `label_counts` computation of `get_dataset_stats` (lines 129-134):
for every image, for every element of its `labels` list,
`label_counts[label] = label_counts.get(label, 0) + 1`. -/
def label_distribution (images : List ImageRec) : List (String × Nat) :=
  images.foldl
    (fun counts img =>
      img.labels.foldl
        (fun cs label => assocSet cs label ((assocGet cs label).getD 0 + 1))
        counts)
    []

/-- The per-image match of `filter_images_by_context`: for every
`(context_type, required_values)` item of the filters,
`any(val in img_context_values for val in required_values)` where
`img_context_values = contexts.get(context_type, [])`. -/
def contextMatch (context_filters : List (String × List String)) (img : ImageRec) :
    Bool :=
  context_filters.all
    (fun p => p.2.any (fun v => ((assocGet img.contexts p.1).getD []).contains v))

/-- The method `filter_images_by_context` (lines 157-185): append, in input order,
every image whose contexts satisfy all the filters. -/
def filter_images_by_context (images : List ImageRec)
    (context_filters : List (String × List String)) : List ImageRec :=
  images.foldl
    (fun acc img => if contextMatch context_filters img then acc ++ [img] else acc)
    []

/-- The matching condition in the words of the spec: for every key of the
filters, at least one of the image's values under that context-category
equals one of the acceptable values; an absent category is the empty value
set. -/
def specContextMatch (context_filters : List (String × List String))
    (img : ImageRec) : Prop :=
  ∀ p ∈ context_filters, ∃ v ∈ p.2, v ∈ (assocGet img.contexts p.1).getD []

/-! ### Helper lemmas -/

theorem assocGet_assocSet {β : Type} (m : List (String × β)) (k k₂ : String) (v : β) :
    assocGet (assocSet m k v) k₂ = if k = k₂ then some v else assocGet m k₂ := by
  induction m with
  | nil => by_cases h : k = k₂ <;> simp [assocSet, assocGet, h]
  | cons p rest ih =>
    obtain ⟨k₁, v₁⟩ := p
    by_cases h₁ : k₁ = k
    · subst h₁
      by_cases h₂ : k₁ = k₂ <;> simp [assocSet, assocGet, h₂]
    · by_cases h₂ : k₁ = k₂
      · subst h₂
        have hk : ¬k = k₁ := fun h => h₁ h.symm
        simp [assocSet, h₁, assocGet, hk]
      · simp [assocSet, h₁, assocGet, h₂, ih]

theorem assocGet_assocSet_self {β : Type} (m : List (String × β)) (k : String) (v : β) :
    assocGet (assocSet m k v) k = some v := by
  simp [assocGet_assocSet]

/-! ### Claims about the dataset catalog -/

/-- C7: loading an unknown dataset identifier fails with a `ValueError`
whose message lists the currently known dataset identifiers, and the
catalog state is unchanged by the failed call. -/
theorem load_unknown_dataset {α : Type} (read : String → α) (cat : Catalog α)
    (did : String) (h : assocGet cat.datasets did = none) :
    load_dataset read cat did =
      (.error (.valueError ("Dataset " ++ did ++ " not found. Available: " ++
        pyStrListRepr (list_datasets cat))), cat) := by
  simp [load_dataset, h, unknownDatasetMsg]

theorem load_unknown_dataset_witness :
    load_dataset (fun _ => ()) (⟨[("ds1", ⟨"p", "q", false, none⟩)]⟩ : Catalog Unit) "nope" =
      (.error (.valueError ("Dataset " ++ "nope" ++ " not found. Available: " ++
        pyStrListRepr (list_datasets (⟨[("ds1", ⟨"p", "q", false, none⟩)]⟩ : Catalog Unit)))),
       (⟨[("ds1", ⟨"p", "q", false, none⟩)]⟩ : Catalog Unit)) :=
  load_unknown_dataset (fun _ => ()) _ "nope" rfl

/-- C8: for a known dataset identifier, after the first load the entry is
marked loaded, and any subsequent load — under an arbitrary filesystem,
hence without re-reading the file — returns the same collection and the
same catalog state as the first call. -/
theorem load_idempotent_cached {α : Type} (read : String → α) (cat : Catalog α)
    (did : String) (e : DatasetEntry α) (h : assocGet cat.datasets did = some e) :
    ((assocGet (load_dataset read cat did).2.datasets did).map DatasetEntry.loaded =
      some true) ∧
    ∀ read₂ : String → α,
      load_dataset read₂ (load_dataset read cat did).2 did = load_dataset read cat did := by
  by_cases hl : e.loaded
  · constructor
    · simp [load_dataset, h, hl]
    · intro read₂
      simp [load_dataset, h, hl]
  · constructor
    · simp [load_dataset, h, hl, assocGet_assocSet_self]
    · intro read₂
      simp [load_dataset, h, hl, assocGet_assocSet_self]

theorem load_idempotent_cached_witness :
    ((assocGet (load_dataset (fun _ => ())
        (⟨[("ds1", ⟨"p", "q", false, none⟩)]⟩ : Catalog Unit) "ds1").2.datasets
        "ds1").map DatasetEntry.loaded = some true) ∧
    ∀ read₂ : String → Unit,
      load_dataset read₂
        (load_dataset (fun _ => ())
          (⟨[("ds1", ⟨"p", "q", false, none⟩)]⟩ : Catalog Unit) "ds1").2 "ds1" =
      load_dataset (fun _ => ())
        (⟨[("ds1", ⟨"p", "q", false, none⟩)]⟩ : Catalog Unit) "ds1" :=
  load_idempotent_cached (fun _ => ()) _ "ds1" ⟨"p", "q", false, none⟩ rfl

theorem bump_fold_count (ls : List String) (m : List (String × Nat)) (l : String) :
    (assocGet (ls.foldl
        (fun cs label => assocSet cs label ((assocGet cs label).getD 0 + 1)) m) l).getD 0 =
      (assocGet m l).getD 0 + ls.count l := by
  induction ls generalizing m with
  | nil => simp
  | cons a as ih =>
    simp only [List.foldl_cons, ih, List.count_cons]
    rw [assocGet_assocSet]
    by_cases h : a = l
    · subst h; simp; omega
    · simp [h]

theorem label_fold_count (images : List ImageRec) (m : List (String × Nat)) (l : String) :
    (assocGet (images.foldl
        (fun counts img => img.labels.foldl
          (fun cs label => assocSet cs label ((assocGet cs label).getD 0 + 1)) counts)
        m) l).getD 0 =
      (assocGet m l).getD 0 + (images.map (fun img => img.labels.count l)).sum := by
  induction images generalizing m with
  | nil => simp
  | cons img rest ih =>
    simp only [List.foldl_cons, ih, bump_fold_count, List.map_cons, List.sum_cons]
    omega

theorem count_sum_eq_filter_length (images : List ImageRec) (l : String)
    (h : ∀ img ∈ images, img.labels.count l ≤ 1) :
    (images.map (fun img => img.labels.count l)).sum =
      (images.filter (fun img => img.labels.contains l)).length := by
  induction images with
  | nil => simp
  | cons img rest ih =>
    have h₁ := h img (by simp)
    have hrest : ∀ i ∈ rest, i.labels.count l ≤ 1 := fun i hi => h i (by simp [hi])
    by_cases hc : l ∈ img.labels
    · have hpos : 0 < img.labels.count l := List.count_pos_iff.mpr hc
      have hcount : img.labels.count l = 1 := by omega
      simp [List.filter_cons, hc, hcount, ih hrest]
      omega
    · have hcount : img.labels.count l = 0 := List.count_eq_zero.mpr hc
      simp [List.filter_cons, hc, hcount, ih hrest]

/-- C2 (amended): the label frequency computed by `get_dataset_stats` is,
for each label, the total number of occurrences of that label across the
images' `labels` arrays — one count per occurrence, not per image; when no
image repeats a label in its `labels` array, this coincides with the number
of images containing the label at least once. -/
theorem label_distribution_counts_occurrences (images : List ImageRec) (l : String) :
    ((assocGet (label_distribution images) l).getD 0 =
      (images.map (fun img => img.labels.count l)).sum) ∧
    ((∀ img ∈ images, img.labels.count l ≤ 1) →
      (assocGet (label_distribution images) l).getD 0 =
        (images.filter (fun img => img.labels.contains l)).length) := by
  have hocc : (assocGet (label_distribution images) l).getD 0 =
      (images.map (fun img => img.labels.count l)).sum := by
    simpa [label_distribution, assocGet] using label_fold_count images [] l
  exact ⟨hocc, fun h => hocc.trans (count_sum_eq_filter_length images l h)⟩

theorem label_distribution_counts_occurrences_witness :
    ((assocGet (label_distribution [⟨1, "a", ["cup", "table"], []⟩]) "cup").getD 0 =
      (([⟨1, "a", ["cup", "table"], []⟩] : List ImageRec).map
        (fun img => img.labels.count "cup")).sum) ∧
    ((∀ img ∈ ([⟨1, "a", ["cup", "table"], []⟩] : List ImageRec),
        img.labels.count "cup" ≤ 1) →
      (assocGet (label_distribution [⟨1, "a", ["cup", "table"], []⟩]) "cup").getD 0 =
        (([⟨1, "a", ["cup", "table"], []⟩] : List ImageRec).filter
          (fun img => img.labels.contains "cup")).length) :=
  label_distribution_counts_occurrences [⟨1, "a", ["cup", "table"], []⟩] "cup"

/-- C2, counterexample to the claim as stated: an image whose `labels`
array is `["cup", "cup"]` is reported with frequency 2 for `"cup"`, while
the number of images containing `"cup"` at least once is 1. -/
theorem label_distribution_duplicate_cex :
    (assocGet (label_distribution [⟨1, "a", ["cup", "cup"], []⟩]) "cup").getD 0 = 2 ∧
    (([⟨1, "a", ["cup", "cup"], []⟩] : List ImageRec).filter
      (fun img => img.labels.contains "cup")).length = 1 := by
  exact ⟨rfl, rfl⟩

theorem foldl_append_filter {α : Type} (p : α → Bool) (l acc : List α) :
    l.foldl (fun a x => if p x then a ++ [x] else a) acc = acc ++ l.filter p := by
  induction l generalizing acc with
  | nil => simp
  | cons x xs ih =>
    by_cases h : p x <;> simp [List.filter_cons, h, ih]

/-- C6: `filter_images_by_context` returns exactly the images — in input
order, unchanged — matching the filters, and the matching condition is:
for every key of the filters, at least one of the image's values under
that context-category equals one of the acceptable values, where an image
lacking the category has the empty value set (so it never matches a
non-empty filter for that category, and no image matches an empty
acceptable-value list). -/
theorem filter_images_by_context_correct (images : List ImageRec)
    (context_filters : List (String × List String)) :
    filter_images_by_context images context_filters =
      images.filter (contextMatch context_filters) ∧
    ∀ img : ImageRec,
      contextMatch context_filters img = true ↔ specContextMatch context_filters img := by
  constructor
  · simpa [filter_images_by_context] using
      foldl_append_filter (contextMatch context_filters) images []
  · intro img
    simp [contextMatch, specContextMatch, List.all_eq_true, List.any_eq_true]

/-! ### Claims about the annotation validator -/

theorem validateLoop_ok_spec (idx : List (JVal × Obj)) (root : String)
    (fs : String → Bool) :
    ∀ anns clean dropped : List Obj,
      validateLoop idx root fs anns = .ok (clean, dropped) →
      clean = anns.filter (isAccepted idx root fs) ∧
      dropped = anns.filterMap (droppedRec idx root fs) ∧
      clean.length + dropped.length = anns.length := by
  intro anns
  induction anns with
  | nil =>
    intro clean dropped h
    simp only [validateLoop, Except.ok.injEq, Prod.mk.injEq] at h
    obtain ⟨h₁, h₂⟩ := h
    simp [← h₁, ← h₂]
  | cons ann rest ih =>
    intro clean dropped h
    simp only [validateLoop] at h
    cases hv : validateAnn idx root fs ann with
    | err => rw [hv] at h; exact absurd h (by simp)
    | accept =>
      rw [hv] at h
      cases hrest : validateLoop idx root fs rest with
      | error e => rw [hrest] at h; exact absurd h (by simp)
      | ok cd =>
        obtain ⟨c, d⟩ := cd
        rw [hrest] at h
        simp only [Except.ok.injEq, Prod.mk.injEq] at h
        obtain ⟨h₁, h₂⟩ := h
        obtain ⟨hc, hd, hlen⟩ := ih c d hrest
        subst h₁ h₂ hc hd
        refine ⟨?_, ?_, ?_⟩
        · simp [List.filter_cons, isAccepted, hv]
        · simp [List.filterMap_cons, droppedRec, hv]
        · simpa using by omega
    | drop rec r =>
      rw [hv] at h
      cases hrest : validateLoop idx root fs rest with
      | error e => rw [hrest] at h; exact absurd h (by simp)
      | ok cd =>
        obtain ⟨c, d⟩ := cd
        rw [hrest] at h
        simp only [Except.ok.injEq, Prod.mk.injEq] at h
        obtain ⟨h₁, h₂⟩ := h
        obtain ⟨hc, hd, hlen⟩ := ih c d hrest
        subst h₁ h₂ hc hd
        refine ⟨?_, ?_, ?_⟩
        · simp [List.filter_cons, isAccepted, hv]
        · simp [List.filterMap_cons, droppedRec, hv]
        · simpa using by omega

/-- C10: when the run completes, the processed records (the capped input)
are partitioned — clean plus dropped counts add up to the processed count,
the clean list is exactly the accepted records in input order, and the
dropped list is exactly the dropped records in input order. -/
theorem validator_partition (fs : String → Bool) (root : String) (data : CocoData)
    (limit : Option Nat) (idx : List (JVal × Obj)) (clean dropped : List Obj)
    (hidx : buildIndex data.images = .ok idx)
    (hrun : runValidator fs root data limit = .ok (clean, dropped)) :
    clean.length + dropped.length = (sliceAnns data.anns limit).length ∧
    clean = (sliceAnns data.anns limit).filter (isAccepted idx root fs) ∧
    dropped = (sliceAnns data.anns limit).filterMap (droppedRec idx root fs) := by
  rw [runValidator, hidx] at hrun
  obtain ⟨h₁, h₂, h₃⟩ := validateLoop_ok_spec idx root fs _ _ _ hrun
  exact ⟨h₃, h₁, h₂⟩

theorem validator_partition_witness :
    ((([] : List Obj).length + ([[("image_id", JVal.num 1),
        ("drop_reason", JVal.str "missing image")]] : List Obj).length =
      (sliceAnns [[("image_id", JVal.num 1)]] none).length) ∧
     (([] : List Obj) =
       (sliceAnns [[("image_id", JVal.num 1)]] none).filter
         (isAccepted [] "imgs" (fun _ => true))) ∧
     (([[("image_id", JVal.num 1), ("drop_reason", JVal.str "missing image")]] : List Obj) =
       (sliceAnns [[("image_id", JVal.num 1)]] none).filterMap
         (droppedRec [] "imgs" (fun _ => true)))) :=
  validator_partition (fun _ => true) "imgs" ⟨[], [[("image_id", JVal.num 1)]]⟩
    none [] [] [[("image_id", JVal.num 1), ("drop_reason", JVal.str "missing image")]]
    rfl rfl

/-- C5: when the run completes, the clean output is exactly the accepted
records unchanged (in particular no `drop_reason` key is added to them) in
input relative order; and every processed record with a fully positive /
non-negative 4-component numeric bbox whose `image_id` resolves through
the index to an existing image file is accepted into the clean output. -/
theorem accepted_unchanged_in_order (fs : String → Bool) (root : String)
    (data : CocoData) (limit : Option Nat) (idx : List (JVal × Obj))
    (clean dropped : List Obj)
    (hidx : buildIndex data.images = .ok idx)
    (hrun : runValidator fs root data limit = .ok (clean, dropped)) :
    clean = (sliceAnns data.anns limit).filter (isAccepted idx root fs) ∧
    ∀ ann ∈ sliceAnns data.anns limit,
      ∀ (x y w h : ℚ) (entry : Obj) (fname : String),
        assocGet ann "bbox" = some (.arr [.num x, .num y, .num w, .num h]) →
        0 < w → 0 < h → 0 ≤ x → 0 ≤ y →
        dictGet idx ((assocGet ann "image_id").getD .null) = some entry →
        entry.isEmpty = false →
        assocGet entry "file_name" = some (.str fname) →
        fs (pyJoin root fname) = true →
        ann ∈ clean := by
  rw [runValidator, hidx] at hrun
  obtain ⟨h₁, _, _⟩ := validateLoop_ok_spec idx root fs _ _ _ hrun
  refine ⟨h₁, ?_⟩
  intro ann hmem x y w h entry fname hbbox hw hh hx hy hdict hentry hfn hfs
  have hw₂ : ¬(w ≤ 0) := not_le.mpr hw
  have hh₂ : ¬(h ≤ 0) := not_le.mpr hh
  have hx₂ : ¬(x < 0) := not_lt.mpr hx
  have hy₂ : ¬(y < 0) := not_lt.mpr hy
  have hacc : validateAnn idx root fs ann = .accept := by
    simp [validateAnn, hbbox, hdict, hentry, hfn, hfs, truthy, pyLen, pyLe, pyLt,
      pyOr, asNum, hw₂, hh₂, hx₂, hy₂]
  rw [h₁]
  exact List.mem_filter.mpr ⟨hmem, by simp [isAccepted, hacc]⟩

theorem accepted_unchanged_in_order_witness :
    (([[("image_id", JVal.num 1),
        ("bbox", JVal.arr [JVal.num 5, JVal.num 5, JVal.num 20, JVal.num 20])]] : List Obj) =
      (sliceAnns [[("image_id", JVal.num 1),
        ("bbox", JVal.arr [JVal.num 5, JVal.num 5, JVal.num 20, JVal.num 20])]] none).filter
        (isAccepted [(JVal.num 1, [("id", JVal.num 1), ("file_name", JVal.str "a.png")])]
          "imgs" (fun _ => true))) ∧
    ∀ ann ∈ sliceAnns [[("image_id", JVal.num 1),
        ("bbox", JVal.arr [JVal.num 5, JVal.num 5, JVal.num 20, JVal.num 20])]] none,
      ∀ (x y w h : ℚ) (entry : Obj) (fname : String),
        assocGet ann "bbox" = some (.arr [.num x, .num y, .num w, .num h]) →
        0 < w → 0 < h → 0 ≤ x → 0 ≤ y →
        dictGet [(JVal.num 1, [("id", JVal.num 1), ("file_name", JVal.str "a.png")])]
          ((assocGet ann "image_id").getD .null) = some entry →
        entry.isEmpty = false →
        assocGet entry "file_name" = some (.str fname) →
        (fun (_ : String) => true) (pyJoin "imgs" fname) = true →
        ann ∈ ([[("image_id", JVal.num 1),
          ("bbox", JVal.arr [JVal.num 5, JVal.num 5, JVal.num 20, JVal.num 20])]] : List Obj) :=
  accepted_unchanged_in_order (fun _ => true) "imgs"
    ⟨[[("id", JVal.num 1), ("file_name", JVal.str "a.png")]],
     [[("image_id", JVal.num 1),
       ("bbox", JVal.arr [JVal.num 5, JVal.num 5, JVal.num 20, JVal.num 20])]]⟩
    none [(JVal.num 1, [("id", JVal.num 1), ("file_name", JVal.str "a.png")])]
    [[("image_id", JVal.num 1),
      ("bbox", JVal.arr [JVal.num 5, JVal.num 5, JVal.num 20, JVal.num 20])]]
    [] rfl rfl

/-- C1: a dropped record carries exactly one `drop_reason`, and that
reason is the first applicable rule in the fixed precedence: missing
image, then missing bbox, then zero/negative width or height, then
negative x or y. -/
theorem drop_reason_first_rule (idx : List (JVal × Obj)) (root : String)
    (fs : String → Bool) (ann rec : Obj) (r : String)
    (h : validateAnn idx root fs ann = .drop rec r) :
    assocGet rec "drop_reason" = some (.str r) ∧
    ((r = "missing image" ∧ failsImageRule idx root fs ann = true) ∨
     (r = "missing bbox" ∧ failsImageRule idx root fs ann = false ∧
        failsBboxRule ann = true) ∨
     (r = "zero/negative width or height" ∧
        failsImageRule idx root fs ann = false ∧ failsBboxRule ann = false ∧
        failsWHRule ann = true) ∨
     (r = "negative x or y" ∧
        failsImageRule idx root fs ann = false ∧ failsBboxRule ann = false ∧
        failsWHRule ann = false ∧ failsXYRule ann = true)) := by
  cases hdict : dictGet idx ((assocGet ann "image_id").getD .null) with
  | none =>
    simp [validateAnn, hdict] at h
    obtain ⟨hrec, hr⟩ := h
    subst hrec hr
    exact ⟨assocGet_assocSet_self ann _ _, Or.inl ⟨rfl, by simp [failsImageRule, hdict]⟩⟩
  | some entry =>
    cases hemp : entry.isEmpty with
    | true =>
      simp [validateAnn, hdict, hemp] at h
      obtain ⟨hrec, hr⟩ := h
      subst hrec hr
      exact ⟨assocGet_assocSet_self ann _ _,
        Or.inl ⟨rfl, by simp [failsImageRule, hdict, hemp]⟩⟩
    | false =>
      cases hfn : assocGet entry "file_name" with
      | none => simp [validateAnn, hdict, hemp, hfn] at h
      | some v =>
        cases v with
        | null => simp [validateAnn, hdict, hemp, hfn] at h
        | bool b => simp [validateAnn, hdict, hemp, hfn] at h
        | num q => simp [validateAnn, hdict, hemp, hfn] at h
        | arr xs => simp [validateAnn, hdict, hemp, hfn] at h
        | str fname =>
          cases hfs : fs (pyJoin root fname) with
          | false =>
            simp [validateAnn, hdict, hemp, hfn, hfs] at h
            obtain ⟨hrec, hr⟩ := h
            subst hrec hr
            exact ⟨assocGet_assocSet_self ann _ _,
              Or.inl ⟨rfl, by simp [failsImageRule, hdict, hemp, hfn, hfs]⟩⟩
          | true =>
            have hir : failsImageRule idx root fs ann = false := by
              simp [failsImageRule, hdict, hemp, hfn, hfs]
            cases hbb : (assocGet ann "bbox").getD .null with
            | null =>
              simp [validateAnn, hdict, hemp, hfn, hfs, hbb, truthy] at h
              obtain ⟨hrec, hr⟩ := h
              subst hrec hr
              exact ⟨assocGet_assocSet_self ann _ _,
                Or.inr (Or.inl ⟨rfl, hir, by simp [failsBboxRule, hbb, truthy]⟩)⟩
            | bool b =>
              cases b with
              | false =>
                simp [validateAnn, hdict, hemp, hfn, hfs, hbb, truthy] at h
                obtain ⟨hrec, hr⟩ := h
                subst hrec hr
                exact ⟨assocGet_assocSet_self ann _ _,
                  Or.inr (Or.inl ⟨rfl, hir, by simp [failsBboxRule, hbb, truthy]⟩)⟩
              | true =>
                simp [validateAnn, hdict, hemp, hfn, hfs, hbb, truthy, pyLen] at h
            | num q =>
              by_cases hq : q = 0
              · simp [validateAnn, hdict, hemp, hfn, hfs, hbb, truthy, hq] at h
                obtain ⟨hrec, hr⟩ := h
                subst hrec hr
                exact ⟨assocGet_assocSet_self ann _ _,
                  Or.inr (Or.inl ⟨rfl, hir, by simp [failsBboxRule, hbb, truthy, hq]⟩)⟩
              · simp [validateAnn, hdict, hemp, hfn, hfs, hbb, truthy, hq, pyLen] at h
            | str s =>
              by_cases hse : s.isEmpty
              · simp [validateAnn, hdict, hemp, hfn, hfs, hbb, truthy, hse] at h
                obtain ⟨hrec, hr⟩ := h
                subst hrec hr
                exact ⟨assocGet_assocSet_self ann _ _,
                  Or.inr (Or.inl ⟨rfl, hir, by simp [failsBboxRule, hbb, truthy, hse]⟩)⟩
              · by_cases hsl : s.length = 4
                · simp [validateAnn, hdict, hemp, hfn, hfs, hbb, truthy, hse, pyLen, hsl] at h
                · simp [validateAnn, hdict, hemp, hfn, hfs, hbb, truthy, hse, pyLen, hsl] at h
                  obtain ⟨hrec, hr⟩ := h
                  subst hrec hr
                  exact ⟨assocGet_assocSet_self ann _ _,
                    Or.inr (Or.inl ⟨rfl, hir,
                      by simp [failsBboxRule, hbb, truthy, hse, pyLen, hsl]⟩)⟩
            | arr xs =>
              rcases xs with _ | ⟨a, _ | ⟨b, _ | ⟨c, _ | ⟨d, _ | ⟨e, rest⟩⟩⟩⟩⟩
              · simp [validateAnn, hdict, hemp, hfn, hfs, hbb, truthy] at h
                obtain ⟨hrec, hr⟩ := h
                subst hrec hr
                exact ⟨assocGet_assocSet_self ann _ _,
                  Or.inr (Or.inl ⟨rfl, hir, by simp [failsBboxRule, hbb, truthy]⟩)⟩
              · simp [validateAnn, hdict, hemp, hfn, hfs, hbb, truthy, pyLen] at h
                obtain ⟨hrec, hr⟩ := h
                subst hrec hr
                exact ⟨assocGet_assocSet_self ann _ _,
                  Or.inr (Or.inl ⟨rfl, hir,
                    by simp [failsBboxRule, hbb, truthy, pyLen]⟩)⟩
              · simp [validateAnn, hdict, hemp, hfn, hfs, hbb, truthy, pyLen] at h
                obtain ⟨hrec, hr⟩ := h
                subst hrec hr
                exact ⟨assocGet_assocSet_self ann _ _,
                  Or.inr (Or.inl ⟨rfl, hir,
                    by simp [failsBboxRule, hbb, truthy, pyLen]⟩)⟩
              · simp [validateAnn, hdict, hemp, hfn, hfs, hbb, truthy, pyLen] at h
                obtain ⟨hrec, hr⟩ := h
                subst hrec hr
                exact ⟨assocGet_assocSet_self ann _ _,
                  Or.inr (Or.inl ⟨rfl, hir,
                    by simp [failsBboxRule, hbb, truthy, pyLen]⟩)⟩
              · -- exactly four components
                have hbr : failsBboxRule ann = false := by
                  simp [failsBboxRule, hbb, truthy, pyLen]
                cases hwh : pyOr (pyLe c 0) (pyLe d 0) with
                | none =>
                  simp [validateAnn, hdict, hemp, hfn, hfs, hbb, truthy, pyLen, hwh] at h
                | some bwh =>
                  cases bwh with
                  | true =>
                    simp [validateAnn, hdict, hemp, hfn, hfs, hbb, truthy, pyLen, hwh] at h
                    obtain ⟨hrec, hr⟩ := h
                    subst hrec hr
                    exact ⟨assocGet_assocSet_self ann _ _,
                      Or.inr (Or.inr (Or.inl ⟨rfl, hir, hbr,
                        by simp [failsWHRule, hbb, hwh]⟩))⟩
                  | false =>
                    have hwr : failsWHRule ann = false := by
                      simp [failsWHRule, hbb, hwh]
                    cases hxy : pyOr (pyLt a 0) (pyLt b 0) with
                    | none =>
                      simp [validateAnn, hdict, hemp, hfn, hfs, hbb, truthy, pyLen,
                        hwh, hxy] at h
                    | some bxy =>
                      cases bxy with
                      | true =>
                        simp [validateAnn, hdict, hemp, hfn, hfs, hbb, truthy, pyLen,
                          hwh, hxy] at h
                        obtain ⟨hrec, hr⟩ := h
                        subst hrec hr
                        exact ⟨assocGet_assocSet_self ann _ _,
                          Or.inr (Or.inr (Or.inr ⟨rfl, hir, hbr, hwr,
                            by simp [failsXYRule, hbb, hxy]⟩))⟩
                      | false =>
                        simp [validateAnn, hdict, hemp, hfn, hfs, hbb, truthy, pyLen,
                          hwh, hxy] at h
              · -- five or more components
                have h5 : ¬(e :: rest).length + 4 = 4 := by simp
                simp [validateAnn, hdict, hemp, hfn, hfs, hbb, truthy, pyLen] at h
                obtain ⟨hrec, hr⟩ := h
                subst hrec hr
                exact ⟨assocGet_assocSet_self ann _ _,
                  Or.inr (Or.inl ⟨rfl, hir,
                    by simp [failsBboxRule, hbb, truthy, pyLen]⟩)⟩

theorem drop_reason_first_rule_witness :
    assocGet [("drop_reason", JVal.str "missing image")] "drop_reason" =
      some (.str "missing image") ∧
    (("missing image" = "missing image" ∧
        failsImageRule [] "imgs" (fun _ => true) [] = true) ∨
     ("missing image" = "missing bbox" ∧
        failsImageRule [] "imgs" (fun _ => true) [] = false ∧
        failsBboxRule [] = true) ∨
     ("missing image" = "zero/negative width or height" ∧
        failsImageRule [] "imgs" (fun _ => true) [] = false ∧
        failsBboxRule [] = false ∧ failsWHRule [] = true) ∨
     ("missing image" = "negative x or y" ∧
        failsImageRule [] "imgs" (fun _ => true) [] = false ∧
        failsBboxRule [] = false ∧ failsWHRule [] = false ∧
        failsXYRule [] = true)) :=
  drop_reason_first_rule [] "imgs" (fun _ => true) []
    [("drop_reason", JVal.str "missing image")] "missing image" rfl

/-- C3, counterexample to the claim as stated: an annotation whose
`image_id` is indexed but whose image record has no `file_name` key makes
the whole run fail (Python `KeyError`) — it is not dropped with reason
"missing image". -/
theorem missing_filename_fatal_cex :
    runValidator (fun _ => true) "imgs"
      ⟨[[("id", JVal.num 1)]], [[("id", JVal.num 10), ("image_id", JVal.num 1)]]⟩
      none = .error () := rfl

/-- C3 (amended): an annotation whose `image_id` resolves to a truthy
indexed image record lacking the `file_name` key causes a fatal
`KeyError`-class failure of the run; only an unindexed `image_id`, a falsy
record, or a non-existing file gives the "missing image" drop. -/
theorem missing_filename_fatal (idx : List (JVal × Obj)) (root : String)
    (fs : String → Bool) (ann entry : Obj)
    (hdict : dictGet idx ((assocGet ann "image_id").getD .null) = some entry)
    (hemp : entry.isEmpty = false)
    (hfn : assocGet entry "file_name" = none) :
    validateAnn idx root fs ann = .err := by
  simp [validateAnn, hdict, hemp, hfn]

theorem missing_filename_fatal_witness :
    validateAnn [(JVal.num 1, [("id", JVal.num 1)])] "imgs" (fun _ => true)
      [("id", JVal.num 10), ("image_id", JVal.num 1)] = .err :=
  missing_filename_fatal [(JVal.num 1, [("id", JVal.num 1)])] "imgs" (fun _ => true)
    [("id", JVal.num 10), ("image_id", JVal.num 1)] [("id", JVal.num 1)] rfl rfl rfl

/-- C4, counterexample to the claim as stated: an annotation with a
4-component non-numeric bbox and a resolving image is not dropped with
reason "missing bbox": the comparison `w <= 0` raises a fatal `TypeError`
and the run fails. -/
theorem nonnumeric_bbox_fatal_cex :
    validateAnn [(JVal.num 1, [("id", JVal.num 1), ("file_name", JVal.str "a.png")])]
      "imgs" (fun _ => true)
      [("id", JVal.num 10), ("image_id", JVal.num 1),
       ("bbox", JVal.arr [JVal.str "a", JVal.str "b", JVal.str "c", JVal.str "d"])] =
      .err := rfl

/-- C4 (amended): past the missing-image check, a falsy bbox (absent,
null, empty) or a bbox array with other than 4 components is dropped with
reason "missing bbox"; the components' numericity is not checked there —
a 4-component bbox whose width is non-numeric instead raises a fatal
`TypeError` when compared (numeric components may be integers or floats,
embedded as rationals, so their comparison is numeric). -/
theorem missing_bbox_semantics (idx : List (JVal × Obj)) (root : String)
    (fs : String → Bool) (ann entry : Obj) (fname : String)
    (hdict : dictGet idx ((assocGet ann "image_id").getD .null) = some entry)
    (hemp : entry.isEmpty = false)
    (hfn : assocGet entry "file_name" = some (.str fname))
    (hfs : fs (pyJoin root fname) = true) :
    (truthy ((assocGet ann "bbox").getD .null) = false →
      validateAnn idx root fs ann =
        .drop (assocSet ann "drop_reason" (.str "missing bbox")) "missing bbox") ∧
    (∀ xs : List JVal, (assocGet ann "bbox").getD .null = .arr xs →
      xs ≠ [] → xs.length ≠ 4 →
      validateAnn idx root fs ann =
        .drop (assocSet ann "drop_reason" (.str "missing bbox")) "missing bbox") ∧
    (∀ x y w h : JVal, (assocGet ann "bbox").getD .null = .arr [x, y, w, h] →
      asNum w = none → validateAnn idx root fs ann = .err) := by
  refine ⟨?_, ?_, ?_⟩
  · intro htr
    simp [validateAnn, hdict, hemp, hfn, hfs, htr]
  · intro xs hbb hne hlen
    simp [validateAnn, hdict, hemp, hfn, hfs, hbb, truthy, hne, pyLen, hlen]
  · intro x y w h hbb hwn
    simp [validateAnn, hdict, hemp, hfn, hfs, hbb, truthy, pyLen, pyOr, pyLe, hwn]

theorem missing_bbox_semantics_witness :
    (truthy ((assocGet ([("image_id", JVal.num 1)] : Obj) "bbox").getD .null) = false →
      validateAnn [(JVal.num 1, [("id", JVal.num 1), ("file_name", JVal.str "a.png")])]
        "imgs" (fun _ => true) [("image_id", JVal.num 1)] =
        .drop (assocSet [("image_id", JVal.num 1)] "drop_reason" (.str "missing bbox"))
          "missing bbox") ∧
    (∀ xs : List JVal,
      (assocGet ([("image_id", JVal.num 1)] : Obj) "bbox").getD .null = .arr xs →
      xs ≠ [] → xs.length ≠ 4 →
      validateAnn [(JVal.num 1, [("id", JVal.num 1), ("file_name", JVal.str "a.png")])]
        "imgs" (fun _ => true) [("image_id", JVal.num 1)] =
        .drop (assocSet [("image_id", JVal.num 1)] "drop_reason" (.str "missing bbox"))
          "missing bbox") ∧
    (∀ x y w h : JVal,
      (assocGet ([("image_id", JVal.num 1)] : Obj) "bbox").getD .null = .arr [x, y, w, h] →
      asNum w = none →
      validateAnn [(JVal.num 1, [("id", JVal.num 1), ("file_name", JVal.str "a.png")])]
        "imgs" (fun _ => true) [("image_id", JVal.num 1)] = .err) :=
  missing_bbox_semantics [(JVal.num 1, [("id", JVal.num 1), ("file_name", JVal.str "a.png")])]
    "imgs" (fun _ => true) [("image_id", JVal.num 1)]
    [("id", JVal.num 1), ("file_name", JVal.str "a.png")] "a.png" rfl rfl rfl rfl

/-- C9, counterexample to the claim as stated: with a configured cap of
N = 0 the validator does not process zero annotations — `if subset_limit:`
is false for 0, the cap is ignored, and the single input annotation is
processed (and here dropped). -/
theorem subset_limit_zero_cex :
    runValidator (fun _ => true) "imgs" ⟨[], [[("image_id", JVal.num 1)]]⟩ (some 0) =
      .ok ([], [[("image_id", JVal.num 1), ("drop_reason", JVal.str "missing image")]]) :=
  rfl

/-- C9 (amended): with a positive cap N the validator runs on exactly the
first N annotations in order, and with no cap it runs on all of them; a
cap of 0, however, is falsy in Python and is treated as no cap — all
annotations are processed. -/
theorem subset_limit_semantics (fs : String → Bool) (root : String)
    (data : CocoData) (n : Nat) :
    (0 < n → runValidator fs root data (some n) =
      runValidator fs root ⟨data.images, data.anns.take n⟩ none) ∧
    runValidator fs root data (some 0) = runValidator fs root data none := by
  constructor
  · intro hn
    have : n ≠ 0 := Nat.pos_iff_ne_zero.mp hn
    simp [runValidator, sliceAnns, this]
  · simp [runValidator, sliceAnns]

theorem subset_limit_semantics_witness :
    (0 < 1 → runValidator (fun _ => true) "imgs"
      (⟨[], [[("image_id", JVal.num 1)], [("image_id", JVal.num 2)]]⟩ : CocoData) (some 1) =
      runValidator (fun _ => true) "imgs"
        ⟨([] : List Obj), ([[("image_id", JVal.num 1)],
          [("image_id", JVal.num 2)]] : List Obj).take 1⟩ none) ∧
    runValidator (fun _ => true) "imgs"
      (⟨[], [[("image_id", JVal.num 1)], [("image_id", JVal.num 2)]]⟩ : CocoData) (some 0) =
    runValidator (fun _ => true) "imgs"
      (⟨[], [[("image_id", JVal.num 1)], [("image_id", JVal.num 2)]]⟩ : CocoData) none :=
  subset_limit_semantics (fun _ => true) "imgs"
    ⟨[], [[("image_id", JVal.num 1)], [("image_id", JVal.num 2)]]⟩ 1

end BTT
